import Mathlib

/-!
Verification of the compute-queue and cross-process-memory-transfer core of
the ROCK kernel driver against its specification.  The development shallowly
embeds the relevant C functions of
`drivers/gpu/drm/amd/amdgpu/amdgpu_amdkfd_gfx_v9.c` and
`drivers/gpu/drm/amd/amdkfd/kfd_chardev.c`:

* machine integers become `Nat` with explicit `% 2 ^ 32` / `% 2 ^ 64`
  reductions where overflow matters;
* hardware/OS primitives (register reads, fence waits, page pinning,
  allocation) become oracle fields of explicit environment structures;
* side effects (register writes, lock acquire/release, buffer frees) become
  explicit event traces;
* unbounded C loops become fuel-indexed recursion.
-/

set_option linter.unusedVariables false

namespace RKD

/-! ### Linux errno values.  Kernel functions return 0 on success or the
negated errno. -/

def EPERM : Int := 1
def ESRCH : Int := 3
def EIOerr : Int := 5
def ENOMEM : Int := 12
def EACCES : Int := 13
def EFAULT : Int := 14
def EINVAL : Int := 22
def ETIME : Int := 62

def UINT32_LIMIT : Nat := 2 ^ 32
def UINT64_LIMIT : Nat := 2 ^ 64

/-! ## Queue Lifecycle Manager (amdgpu_amdkfd_gfx_v9.c) -/

/-- Hardware-visible events performed by the queue lifecycle operations:
acquiring/releasing the (mec,pipe,queue) slot via the srbm mutex
(acquire_queue / release_queue), and register writes/reads. -/
inductive GfxEv where
  | acquire_queue
  | release_queue
  | wreg (addr val : Nat)
  | rreg (addr : Nat)
deriving DecidableEq, Repr

/-- SOC15 register offsets are hardware constants taken from headers outside
this tree; the embedding only needs them to be fixed, distinct addresses. -/
def regRLC_CP_SCHEDULERS : Nat := 100

def regCP_HQD_DEQUEUE_REQUEST : Nat := 101

def regCP_HQD_ACTIVE : Nat := 102

/-- enum hqd_dequeue_request_type of amdgpu_amdkfd_gfx_v9.c. -/
def NO_ACTION : Nat := 0

def DRAIN_PIPE : Nat := 1

def RESET_WAVES : Nat := 2

/-- CP_HQD_ACTIVE__ACTIVE_MASK: the active flag is a single low bit. -/
def CP_HQD_ACTIVE__ACTIVE_MASK : Nat := 1

/-- enum kfd_preempt_type as seen by kgd_hqd_destroy; the `unrecognized`
constructor stands for any value outside the two named ones (the C switch
default). -/
inductive kfd_preempt_type where
  | wavefront_drain
  | wavefront_reset
  | unrecognized
deriving DecidableEq, Repr

/-- The v9 MQD fields consumed by the embedded operations.  Every register
image field is a 32-bit value.  `cp_hqd_pq_control_queue_size` is the already
extracted QUEUE_SIZE field of cp_hqd_pq_control (REG_GET_FIELD is a
hardware-constant bit slice, out of the specification's scope). -/
structure v9_mqd where
  cp_hqd_vmid : Nat
  cp_hqd_pq_rptr : Nat
  cp_hqd_pq_wptr_lo : Nat
  cp_hqd_pq_wptr_hi : Nat
  cp_hqd_pq_control_queue_size : Nat
deriving DecidableEq, Repr

/-- Environment for kgd_hqd_destroy: device state and hardware oracles.
Time is modelled by the poll index: `active i` is the CP_HQD_ACTIVE value
read back at the i-th poll iteration and `deadline` is the first poll index
at which `time_after(jiffies, end_jiffies)` (with end_jiffies derived from
the utimeout argument) is true. -/
structure DestroyEnv where
  in_gpu_reset : Bool
  rreg : Nat → Nat
  active : Nat → Nat
  deadline : Nat

/-- The CP_HQD_ACTIVE poll loop of kgd_hqd_destroy: break (success) once the
active bit clears, -ETIME once past the deadline.  `fuel` only bounds the
recursion; with `fuel = deadline + 2` it never runs out. -/
def hqd_destroy_poll (active : Nat → Nat) (deadline : Nat) : Nat → Nat → Int
  | _, 0 => -ETIME
  | i, fuel + 1 =>
    if active i &&& CP_HQD_ACTIVE__ACTIVE_MASK == 0 then 0
    else if deadline < i then -ETIME
    else hqd_destroy_poll active deadline (i + 1) fuel

/-- kgd_hqd_destroy.  Returns the errno-style result together with the trace
of hardware events.  The RLC_CP_SCHEDULERS write for the HIQ (vmid 0) is a
read-modify-write clearing the scheduler1 field; the written value is
abstracted as the read-back value (the cleared-field encoding is a hardware
constant). -/
def kgd_hqd_destroy (env : DestroyEnv) (m : v9_mqd) (reset_type : kfd_preempt_type)
    (utimeout : Nat) : Int × List GfxEv :=
  if env.in_gpu_reset then (-EIOerr, [])
  else
    let evs := [GfxEv.acquire_queue]
    let evs := if m.cp_hqd_vmid == 0
      then evs ++ [GfxEv.wreg regRLC_CP_SCHEDULERS (env.rreg regRLC_CP_SCHEDULERS)]
      else evs
    let t : Nat :=
      match reset_type with
      | .wavefront_drain => DRAIN_PIPE
      | .wavefront_reset => RESET_WAVES
      | .unrecognized => DRAIN_PIPE
    let evs := evs ++ [GfxEv.wreg regCP_HQD_DEQUEUE_REQUEST t]
    let r := hqd_destroy_poll env.active env.deadline 0 (env.deadline + 2)
    (r, evs ++ [GfxEv.release_queue])

/-- Compile-time cap on the number of dumped registers (HQD_N_REGS). -/
def HQD_N_REGS : Nat := 56

/-- Environment for kgd_hqd_dump: whether the kmalloc of the output array
succeeds, and the register-read oracle. -/
structure DumpEnv where
  kmalloc_ok : Bool
  rreg : Nat → Nat

/-- The register loop of kgd_hqd_dump built from the DUMP_REG macro.  When
the output is already full (i >= HQD_N_REGS) the macro's break leaves the
do-while(0) only: the register is skipped (after a WARN_ON_ONCE) and the
loop continues, no error is raised. -/
def hqd_dump_loop (rreg : Nat → Nat) :
    List Nat → Nat → List (Nat × Nat) → List GfxEv → Nat × List (Nat × Nat) × List GfxEv
  | [], i, acc, evs => (i, acc, evs)
  | r :: rs, i, acc, evs =>
    if HQD_N_REGS ≤ i then hqd_dump_loop rreg rs i acc evs
    else hqd_dump_loop rreg rs (i + 1) (acc ++ [(r <<< 2, rreg r)]) (evs ++ [GfxEv.rreg r])

/-- kgd_hqd_dump over the HQD register block [hqd_base, hqd_end] (the SOC15
offsets of mmCP_MQD_BASE_ADDR and mmCP_HQD_PQ_WPTR_HI are hardware
constants, so the range bounds are parameters).  Returns the (offset << 2,
value) dump array and n_regs, plus the hardware event trace; the reads
happen between acquire_queue and release_queue. -/
def kgd_hqd_dump (env : DumpEnv) (hqd_base hqd_end : Nat) :
    Except Int (List (Nat × Nat) × Nat) × List GfxEv :=
  if !env.kmalloc_ok then (.error (-ENOMEM), [])
  else
    let regs := List.range' hqd_base (hqd_end + 1 - hqd_base)
    let r := hqd_dump_loop env.rreg regs 0 [] []
    (.ok (r.2.1, r.1), [GfxEv.acquire_queue] ++ r.2.2 ++ [GfxEv.release_queue])

/-- Whether an Except value is a success. -/
def exceptIsOk : Except Int (List (Nat × Nat) × Nat) → Bool
  | .ok _ => true
  | .error _ => false

/-- uint32_t queue_size = 2 << REG_GET_FIELD(..., QUEUE_SIZE), as computed by
kgd_hqd_load (32-bit arithmetic). -/
def hqd_load_queue_size (queue_size_field : Nat) : Nat :=
  (2 <<< queue_size_field) % UINT32_LIMIT

/-- The guessed 64-bit write pointer computed by kgd_hqd_load when a user
wptr address is supplied.  All locals follow the C: `queue_size - 1` is a
uint32 subtraction, `~(queue_size - 1)` is a 32-bit complement (xor with
0xffffffff), the accumulation is uint64. -/
def hqd_load_guessed_wptr (m : v9_mqd) : Nat :=
  let queue_size := hqd_load_queue_size m.cp_hqd_pq_control_queue_size
  let mask := (queue_size + (UINT32_LIMIT - 1)) % UINT32_LIMIT
  let g0 := m.cp_hqd_pq_rptr &&& mask
  let g1 := if m.cp_hqd_pq_wptr_lo &&& mask < g0 then g0 + queue_size else g0
  let g2 := g1 + (m.cp_hqd_pq_wptr_lo &&& (mask ^^^ (UINT32_LIMIT - 1)))
  (g2 + (m.cp_hqd_pq_wptr_hi <<< 32)) % UINT64_LIMIT

/-- The registers programmed by kgd_hqd_load for the write pointer:
(CP_HQD_PQ_WPTR_LO, CP_HQD_PQ_WPTR_HI) receive lower_32_bits and
upper_32_bits of the guessed wptr. -/
def hqd_load_programmed_wptr (m : v9_mqd) : Nat × Nat :=
  (hqd_load_guessed_wptr m % UINT32_LIMIT, hqd_load_guessed_wptr m / UINT32_LIMIT)

/-- The reconstruction as the specification words it: the saved 64-bit write
pointer with its low log2(queue_size) bits replaced by the corresponding low
bits of the saved 32-bit read pointer, plus one queue size exactly when the
saved write pointer's low bits are smaller than those read-pointer bits. -/
def spec_reconstructed_wptr (m : v9_mqd) : Nat :=
  let qs := 2 ^ (m.cp_hqd_pq_control_queue_size + 1)
  let saved := m.cp_hqd_pq_wptr_hi * UINT32_LIMIT + m.cp_hqd_pq_wptr_lo
  let wrap := if m.cp_hqd_pq_wptr_lo % qs < m.cp_hqd_pq_rptr % qs then qs else 0
  (saved - saved % qs + m.cp_hqd_pq_rptr % qs + wrap) % UINT64_LIMIT

/-! ## Cross-process memory copy engine (kfd_chardev.c) -/

def PAGE_SIZE : Nat := 4096

/-- Staging capacity limit: MAX_SYSTEM_BO_SIZE = 512 * PAGE_SIZE. -/
def MAX_SYSTEM_BO_SIZE : Nat := 512 * PAGE_SIZE

def KFD_IOC_ALLOC_MEM_FLAGS_VRAM : Nat := 1

/-- struct kfd_memory_range: one (virtual address, length) pair supplied by
userspace. -/
structure kfd_memory_range where
  va_addr : Nat
  size : Nat
deriving DecidableEq, Repr

/-- struct kfd_bo as consumed by the copy engine: device-virtual interval
[start, last], memory kind, optional pinned host virtual address (cpuva),
owning device and the kgd_mem handle (modelled as an id). -/
structure kfd_bo where
  start : Nat
  last : Nat
  mem_type : Nat
  cpuva : Option Nat
  dev : Nat
  mem : Nat
deriving DecidableEq, Repr, Inhabited

/-- struct dma_fence: completion token; only the context and a sequence
number are relevant. -/
structure dma_fence where
  context : Nat
  seqno : Nat
deriving DecidableEq, Repr

/-- One shadow system BO (struct cma_system_bo): the allocated kgd_mem id,
whether it owns a pinned-page sg table, and the device it was created on. -/
structure cma_system_bo where
  mem : Nat
  sg : Bool
  dev : Nat
deriving DecidableEq, Repr

/-- struct cma_iter.  `array` is the suffix of ranges starting at the
current one (the C keeps a moving pointer), `p` is the owning process's
buffer-object table, and `cma_list` collects shadow BOs for deferred
cleanup.  The mm/task fields of the C struct only feed OS oracles and are
omitted. -/
structure cma_iter where
  array : List kfd_memory_range
  offset : Nat
  nr_segs : Nat
  total : Nat
  cur_bo : Option kfd_bo
  bo_offset : Nat
  p : List kfd_bo
  cma_list : List cma_system_bo
deriving DecidableEq, Repr

/-- The range the iterator's array pointer currently designates. -/
def curRange (ci : cma_iter) : kfd_memory_range :=
  ci.array.headD ⟨0, 0⟩

/-- The start address of the resolved buffer object. -/
def boStart (ci : cma_iter) : Nat :=
  (ci.cur_bo.getD default).start

/-- Modelled from the spec: kfd_process_find_bo_from_interval lives in
kfd_process.c, which is not part of this source tree.  Per the spec a
process's BufferObjects are looked up by interval containment and no two
BufferObjects of one process have overlapping intervals; the lookup is
modelled as returning the buffer object whose interval contains the start
address of the queried interval, if any. -/
def kfd_process_find_bo_from_interval (p : List kfd_bo) (start last : Nat) :
    Option kfd_bo :=
  p.find? fun b => decide (b.start ≤ start ∧ start ≤ b.last)

/-- kfd_cma_iter_update_bo: resolve cma_iter.array's current range to a BO
and fail with -EFAULT when the range's end lies beyond the found BO. -/
def kfd_cma_iter_update_bo (ci : cma_iter) : Except Int cma_iter :=
  let arr := curRange ci
  let va_end := arr.va_addr + arr.size - 1
  match kfd_process_find_bo_from_interval ci.p arr.va_addr va_end with
  | none => .error (-EFAULT)
  | some bo =>
    if va_end > bo.last then .error (-EFAULT)
    else .ok { ci with cur_bo := some bo }

/-- kfd_cma_iter_advance: advance the iterator by `size` bytes.  The offset
is bumped first, then the WARN_ON consistency check may fail with -EFAULT;
on crossing a range boundary the next range is resolved (or the iterator
becomes terminal when none remain). -/
def kfd_cma_iter_advance (ci : cma_iter) (size : Nat) : Except Int cma_iter :=
  let ci := { ci with offset := ci.offset + size }
  if ci.total < size ∨ (curRange ci).size < ci.offset then .error (-EFAULT)
  else
    let ci := { ci with total := ci.total - size }
    if ci.offset == (curRange ci).size then
      let ci := { ci with nr_segs := ci.nr_segs - 1 }
      if ci.nr_segs == 0 then .ok ci
      else
        let ci := { ci with array := ci.array.tail, offset := 0 }
        match kfd_cma_iter_update_bo ci with
        | .error e => .error e
        | .ok ci =>
          .ok { ci with bo_offset := (curRange ci).va_addr + ci.offset - boStart ci }
    else
      .ok { ci with bo_offset := (curRange ci).va_addr + ci.offset - boStart ci }

/-- kfd_cma_iter_init.  `arrNull` models a NULL range-array pointer and
`segs` the user-supplied count (the C sums `arr[0..segs)`; the model sums
over `arr.take segs`).  A zero total is valid and leaves the buffer object
unresolved. -/
def kfd_cma_iter_init (arrNull : Bool) (arr : List kfd_memory_range) (segs : Nat)
    (p : List kfd_bo) : Except Int cma_iter :=
  if arrNull ∨ segs == 0 then .error (-EINVAL)
  else
    let ci : cma_iter :=
      { array := arr, offset := 0, nr_segs := segs,
        total := ((arr.take segs).map kfd_memory_range.size).sum,
        cur_bo := none, bo_offset := 0, p := p, cma_list := [] }
    if ci.total == 0 then .ok ci
    else
      match kfd_cma_iter_update_bo ci with
      | .error e => .error e
      | .ok ci => .ok { ci with bo_offset := (curRange ci).va_addr - boStart ci }

/-- kfd_cma_iter_end: terminal iff no segments remain or no bytes remain. -/
def kfd_cma_iter_end (ci : cma_iter) : Bool :=
  ci.nr_segs == 0 || ci.total == 0

/-- A sequence of advances, failing at the first error. -/
def kfd_cma_iter_advanceList (ci : cma_iter) : List Nat → Except Int cma_iter
  | [] => .ok ci
  | s :: rest =>
    match kfd_cma_iter_advance ci s with
    | .error e => .error e
    | .ok ci' => kfd_cma_iter_advanceList ci' rest

/-- Observable events of the copy engine: fence waits/puts, GPU buffer
allocation and free (by kgd_mem id), sg-table page release, the size
requested from the device copy primitive amdgpu_amdkfd_copy_mem_to_mem, and
the kcl_mm_access permission call (recording whether the task pointer handed
to it was NULL). -/
inductive CmaEv where
  | fence_wait (f : dma_fence)
  | fence_put (f : dma_fence)
  | alloc_mem (mem : Nat)
  | free_mem (mem : Nat)
  | put_sg
  | m2m_req (dev size : Nat)
  | mm_access_call (task_is_null : Bool)
deriving DecidableEq, Repr

/-- Oracles for the OS/hardware primitives the copy engine calls.
`fence_wait f` is the dma_fence_wait_timeout result under the 1-second CMA
timeout (CMA_WAIT_TIMEOUT): positive = signaled in time, 0 = timed out,
negative = error.  `sg_create size offset` models
kfd_create_sg_table_from_userptr_bo and returns (possibly shrunk size,
page-aligned sg size).  `alloc_mem dev size` models
amdgpu_amdkfd_gpuvm_alloc_memory_of_gpu and returns a fresh kgd_mem id.
`copy_m2m dev src_mem src_off dst_mem dst_off size` models
amdgpu_amdkfd_copy_mem_to_mem and returns (fence, bytes copied).
`userptr_copy size` models kfd_copy_userptr_bos (whose page-pinning interior
no claim depends on) and returns (err, bytes copied). -/
structure CmaEnv where
  fence_wait : dma_fence → Int
  kzalloc_ok : Bool
  sg_create : Nat → Nat → Except Int (Nat × Nat)
  pdd_exists : Bool
  alloc_mem : Nat → Nat → Except Int Nat
  copy_m2m : Nat → Nat → Nat → Nat → Nat → Nat → Except Int (dma_fence × Nat)
  userptr_copy : Nat → Int × Nat

/-- kfd_cma_fence_wait: dma_fence_wait_timeout with CMA_WAIT_TIMEOUT
(1 second); a zero result becomes -ETIME, a positive one success. -/
def kfd_cma_fence_wait (env : CmaEnv) (f : dma_fence) : Int :=
  let ret := env.fence_wait f
  if 0 < ret then 0
  else if ret == 0 then -ETIME
  else ret

/-- kfd_fence_put_wait_if_diff_context: wait for the previous fence pf (with
the 1-second timeout) only when the current fence cf exists and belongs to a
different context, then put pf.  Returns the wait result and the fence
events performed. -/
def kfd_fence_put_wait_if_diff_context (env : CmaEnv) (cf pf : Option dma_fence) :
    Int × List CmaEv :=
  match pf, cf with
  | some p, some c =>
    if c.context ≠ p.context then
      (kfd_cma_fence_wait env p, [CmaEv.fence_wait p, CmaEv.fence_put p])
    else (0, [CmaEv.fence_put p])
  | some p, none => (0, [CmaEv.fence_put p])
  | none, _ => (0, [])

/-- Result of kfd_create_cma_system_bo: errno, the new shadow BO (none on
failure), the in/out size, and the event trace. -/
structure CreateCmaRes where
  err : Int
  cbo : Option cma_system_bo
  size : Nat
  evs : List CmaEv
deriving Repr

/-- kfd_create_cma_system_bo: build a shadow system BO for `bo` on device
`kdev`.  A VRAM source caps the new BO at MAX_SYSTEM_BO_SIZE and stages its
contents through one synchronously-waited device copy; a userptr source pins
pages into an sg table with no such cap (only the pinning itself may shrink
the size).  Note the copy_fail label of the source frees bo->mem (the
caller's source buffer), not the freshly allocated cbo->mem; the event trace
reproduces that behaviour. -/
def kfd_create_cma_system_bo (env : CmaEnv) (kdev : Nat) (bo : kfd_bo)
    (size offset : Nat) (cma_write : Bool) : CreateCmaRes :=
  if !env.kzalloc_ok then ⟨-ENOMEM, none, size, []⟩
  else
    let staged : Except Int (Nat × Nat × Bool) :=
      if bo.mem_type == KFD_IOC_ALLOC_MEM_FLAGS_VRAM then
        .ok (size, min size MAX_SYSTEM_BO_SIZE, false)
      else if bo.cpuva.isSome then
        match env.sg_create size offset with
        | .error e => .error e
        | .ok (size', sg_size) => .ok (size', sg_size, true)
      else .error (-EINVAL)
    match staged with
    | .error e => ⟨e, none, size, []⟩
    | .ok (size1, bo_size, sgFlag) =>
      let sgEvs : List CmaEv := if sgFlag then [CmaEv.put_sg] else []
      if !env.pdd_exists then ⟨-EINVAL, none, size1, sgEvs⟩
      else
        match env.alloc_mem kdev bo_size with
        | .error e => ⟨e, none, size1, sgEvs⟩
        | .ok memid =>
          let evs0 := [CmaEv.alloc_mem memid]
          if bo.mem_type == KFD_IOC_ALLOC_MEM_FLAGS_VRAM then
            match env.copy_m2m kdev bo.mem offset memid 0 bo_size with
            | .error e =>
              ⟨e, none, size1,
               evs0 ++ [CmaEv.m2m_req kdev bo_size, CmaEv.free_mem bo.mem] ++ sgEvs⟩
            | .ok (f, copied) =>
              let w := kfd_cma_fence_wait env f
              let evs1 := evs0 ++
                [CmaEv.m2m_req kdev bo_size, CmaEv.fence_wait f, CmaEv.fence_put f]
              if w ≠ 0 then ⟨w, none, copied, evs1 ++ [CmaEv.free_mem bo.mem] ++ sgEvs⟩
              else ⟨0, some ⟨memid, sgFlag, kdev⟩, copied, evs1⟩
          else ⟨0, some ⟨memid, sgFlag, kdev⟩, size1, evs0⟩

/-- kfd_create_kgd_mem: allocate a bare GTT kgd_mem of `size` bytes on
device `kdev`; every failure is reported as -EINVAL. -/
def kfd_create_kgd_mem (env : CmaEnv) (kdev size : Nat) : Except Int Nat × List CmaEv :=
  if size == 0 then (.error (-EINVAL), [])
  else if !env.pdd_exists then (.error (-EINVAL), [])
  else
    match env.alloc_mem kdev size with
    | .error _ => (.error (-EINVAL), [])
    | .ok memid => (.ok memid, [CmaEv.alloc_mem memid])

/-- Result of kfd_copy_bos / kfd_copy_single_range: errno, the returned
fence (if any), bytes copied, both iterators, the caller-owned intermediate
buffer, and the event trace. -/
structure CopyBosRes where
  err : Int
  fence : Option dma_fence
  copied : Nat
  si : cma_iter
  di : cma_iter
  tmp_mem : Option Nat
  evs : List CmaEv
deriving Repr

/-- The final amdgpu_amdkfd_copy_mem_to_mem call shared by all kfd_copy_bos
paths.  For the double-copy (d2d) path with an intermediate buffer the
source waits for the fence and returns none instead of it. -/
def kfd_copy_bos_final (env : CmaEnv) (dev src_mem src_offset dst_mem dst_offset size : Nat)
    (si di : cma_iter) (tmp_mem : Option Nat) (d2d : Bool) (evs : List CmaEv) : CopyBosRes :=
  match env.copy_m2m dev src_mem src_offset dst_mem dst_offset size with
  | .error e => ⟨e, none, 0, si, di, tmp_mem, evs ++ [CmaEv.m2m_req dev size]⟩
  | .ok (f, copied) =>
    if tmp_mem.isSome && d2d then
      ⟨0, none, copied, si, di, tmp_mem,
       evs ++ [CmaEv.m2m_req dev size, CmaEv.fence_wait f, CmaEv.fence_put f]⟩
    else
      ⟨0, some f, copied, si, di, tmp_mem, evs ++ [CmaEv.m2m_req dev size]⟩

/-- The VRAM-to-VRAM cross-device hop of kfd_copy_bos: copy the (already
MAX_SYSTEM_BO_SIZE-capped) window into the intermediate buffer `t` on the
source device, wait for that fence (the source ignores the wait's return
value), then run the final copy on the destination device. -/
def kfd_copy_bos_d2d (env : CmaEnv) (si di : cma_iter) (dev size t : Nat)
    (evs : List CmaEv) : CopyBosRes :=
  let src_bo := si.cur_bo.getD default
  match env.copy_m2m src_bo.dev src_bo.mem si.bo_offset t 0 size with
  | .error _ => ⟨-EINVAL, none, 0, si, di, some t, evs ++ [CmaEv.m2m_req src_bo.dev size]⟩
  | .ok (f, size') =>
    let evs := evs ++ [CmaEv.m2m_req src_bo.dev size, CmaEv.fence_wait f, CmaEv.fence_put f]
    kfd_copy_bos_final env dev t 0 (di.cur_bo.getD default).mem di.bo_offset size'
      si di (some t) true evs

/-- kfd_copy_bos: copy `size0` bytes from si's current BO to di's current
BO, picking the strategy by buffer kind.  When shadow-BO creation fails the
source dereferences the NULL si->cma_bo / di->cma_bo before the err check;
that path is modelled as reaching the subsequent `if (err) return -EINVAL`
exit. -/
def kfd_copy_bos (env : CmaEnv) (si di : cma_iter) (cma_write : Bool)
    (size0 : Nat) (tmp_mem : Option Nat) : CopyBosRes :=
  let src_bo := si.cur_bo.getD default
  let dst_bo := di.cur_bo.getD default
  if src_bo.cpuva.isSome && dst_bo.cpuva.isSome then
    let r := env.userptr_copy size0
    ⟨r.1, none, r.2, si, di, tmp_mem, []⟩
  else if src_bo.cpuva.isSome then
    let dev := dst_bo.dev
    let c := kfd_create_cma_system_bo env dev src_bo size0 si.bo_offset cma_write
    match c.cbo with
    | none => ⟨-EINVAL, none, 0, si, di, tmp_mem, c.evs⟩
    | some cbo =>
      let si' := { si with cma_list := si.cma_list ++ [cbo] }
      kfd_copy_bos_final env dev cbo.mem (si.bo_offset &&& (PAGE_SIZE - 1))
        dst_bo.mem di.bo_offset c.size si' di tmp_mem false c.evs
  else if dst_bo.cpuva.isSome then
    let dev := src_bo.dev
    let c := kfd_create_cma_system_bo env dev dst_bo size0 di.bo_offset cma_write
    match c.cbo with
    | none => ⟨-EINVAL, none, 0, si, di, tmp_mem, c.evs⟩
    | some cbo =>
      let di' := { di with cma_list := di.cma_list ++ [cbo] }
      kfd_copy_bos_final env dev src_bo.mem si.bo_offset cbo.mem
        (di.bo_offset &&& (PAGE_SIZE - 1)) c.size si di' tmp_mem false c.evs
  else if src_bo.dev != dst_bo.dev then
    if src_bo.mem_type == KFD_IOC_ALLOC_MEM_FLAGS_VRAM &&
       dst_bo.mem_type == KFD_IOC_ALLOC_MEM_FLAGS_VRAM then
      let dev := dst_bo.dev
      let size := min size0 MAX_SYSTEM_BO_SIZE
      match tmp_mem with
      | none =>
        match kfd_create_kgd_mem env src_bo.dev MAX_SYSTEM_BO_SIZE with
        | (.error _, evs) => ⟨-EINVAL, none, 0, si, di, none, evs⟩
        | (.ok t, evs) => kfd_copy_bos_d2d env si di dev size t evs
      | some t => kfd_copy_bos_d2d env si di dev size t []
    else if src_bo.mem_type == KFD_IOC_ALLOC_MEM_FLAGS_VRAM then
      kfd_copy_bos_final env src_bo.dev src_bo.mem si.bo_offset dst_bo.mem di.bo_offset
        size0 si di tmp_mem false []
    else
      kfd_copy_bos_final env dst_bo.dev src_bo.mem si.bo_offset dst_bo.mem di.bo_offset
        size0 si di tmp_mem false []
  else
    kfd_copy_bos_final env dst_bo.dev src_bo.mem si.bo_offset dst_bo.mem di.bo_offset
      size0 si di tmp_mem false []

/-- The while loop of kfd_copy_single_range.  `size` is the residue of the
current source range; each iteration requests
min(size, di->array->size - di->offset), applies the cross-context fence
rule to a newly obtained fence, and advances both iterators by the bytes
actually copied.  `fuel` bounds the unrolling (the C loop can fail to make
progress when the copy oracle returns 0 bytes); running out of fuel exits
the loop as if the guard failed. -/
def kfd_copy_single_range_loop (env : CmaEnv) (cma_write : Bool) :
    Nat → cma_iter → cma_iter → Nat → Option dma_fence → Nat → Option Nat →
    List CmaEv → CopyBosRes
  | 0, si, di, _, lfence, copied, tmp, evs =>
    ⟨0, lfence, copied, si, di, tmp, evs⟩
  | fuel + 1, si, di, size, lfence, copied, tmp, evs =>
    if size ≠ 0 ∧ kfd_cma_iter_end di = false then
      let copy_size := min size ((curRange di).size - di.offset)
      let r := kfd_copy_bos env si di cma_write copy_size tmp
      let evs := evs ++ r.evs
      if r.err ≠ 0 then
        ⟨r.err, lfence, copied, r.si, r.di, r.tmp_mem, evs⟩
      else
        let fr : Int × Option dma_fence × List CmaEv :=
          match r.fence with
          | some fence =>
            let w := kfd_fence_put_wait_if_diff_context env (some fence) lfence
            (w.1, some fence, w.2)
          | none => (0, lfence, [])
        let evs := evs ++ fr.2.2
        if fr.1 ≠ 0 then
          ⟨fr.1, fr.2.1, copied, r.si, r.di, r.tmp_mem, evs⟩
        else
          match kfd_cma_iter_advance r.si r.copied with
          | .error e => ⟨e, fr.2.1, copied + r.copied, r.si, r.di, r.tmp_mem, evs⟩
          | .ok si' =>
            match kfd_cma_iter_advance r.di r.copied with
            | .error e => ⟨e, fr.2.1, copied + r.copied, si', r.di, r.tmp_mem, evs⟩
            | .ok di' =>
              kfd_copy_single_range_loop env cma_write fuel si' di'
                (size - r.copied) fr.2.1 (copied + r.copied) r.tmp_mem evs
    else ⟨0, lfence, copied, si, di, tmp, evs⟩

/-- kfd_copy_single_range: copy the whole current source range into the
destination iterator; the returned fence is the last one still pending. -/
def kfd_copy_single_range (env : CmaEnv) (fuel : Nat) (si di : cma_iter)
    (cma_write : Bool) (tmp_mem : Option Nat) : CopyBosRes :=
  if si.cur_bo.isNone then ⟨-EINVAL, none, 0, si, di, tmp_mem, []⟩
  else kfd_copy_single_range_loop env cma_write fuel si di (curRange si).size
    none 0 tmp_mem []

/-- Result of kcl_mm_access(task, PTRACE_MODE_ATTACH_REALCREDS).  Modelled
from the spec: kcl_mm_access is kernel-compat plumbing outside this tree; it
returns the remote mm when the local caller has a ptrace-attach-equivalent
relationship (attach with real credentials) to the remote process,
ERR_PTR(-EACCES) when that relationship is missing, and NULL when the task
has no mm. -/
inductive MmAccessRes where
  | null
  | err (e : Int)
  | mm (id : Nat)
deriving DecidableEq, Repr

/-- Environment of the cross-memory-copy ioctl: the copy-engine oracles plus
the OS lookups it performs before building the iterators.  `src_copy` /
`dst_copy` are the copy_from_user results for the two range arrays (none
models a fault). -/
structure IoctlEnv where
  cma : CmaEnv
  kmalloc_ok : Bool
  src_copy : Option (List kfd_memory_range)
  dst_copy : Option (List kfd_memory_range)
  find_get_pid : Int → Option Nat
  get_pid_task : Nat → Option Nat
  mm_access : Option Nat → MmAccessRes
  get_kfd_process : Option Nat → Except Int (List kfd_bo)
  local_bos : List kfd_bo
  fuel : Nat

/-- struct kfd_ioctl_cross_memory_copy_args (pointers are modelled as
numbers, 0 = NULL; `flags_write` is KFD_IS_CROSS_MEMORY_WRITE(flags)). -/
structure CmaArgs where
  src_mem_range_array : Nat
  dst_mem_range_array : Nat
  src_mem_array_size : Nat
  dst_mem_array_size : Nat
  pid : Int
  flags_write : Bool
deriving DecidableEq, Repr

/-- Which exit path of kfd_ioctl_cross_memory_copy produced the result,
following the goto labels of the source. -/
inductive ExitSite where
  | badParams
  | nomem
  | cfuFail
  | pidFail
  | taskDied
  | mmFail
  | procFail
  | iterFail
  | done
deriving DecidableEq, Repr

/-- Result of the ioctl: errno, bytes_copied as written back to the args,
the exit path taken and the event trace. -/
structure IoctlRes where
  err : Int
  bytes_copied : Nat
  site : ExitSite
  evs : List CmaEv
deriving Repr

/-- Result of the ioctl's copy loop. -/
structure LoopRes where
  err : Int
  total : Nat
  si : cma_iter
  di : cma_iter
  lfence : Option dma_fence
  tmp_mem : Option Nat
  evs : List CmaEv
deriving Repr

/-- The while loop of kfd_ioctl_cross_memory_copy: one
kfd_copy_single_range call per iteration, accumulating bytes_copied and
applying the cross-context fence rule between consecutive ranges. -/
def cma_main_loop (env : CmaEnv) (write : Bool) (innerFuel : Nat) :
    Nat → cma_iter → cma_iter → Option dma_fence → Nat → Option Nat →
    List CmaEv → LoopRes
  | 0, si, di, lf, tot, tmp, evs => ⟨0, tot, si, di, lf, tmp, evs⟩
  | fuel + 1, si, di, lf, tot, tmp, evs =>
    if kfd_cma_iter_end si = false ∧ kfd_cma_iter_end di = false then
      let r := kfd_copy_single_range env innerFuel si di write tmp
      let tot := tot + r.copied
      let evs := evs ++ r.evs
      if r.err ≠ 0 then ⟨r.err, tot, r.si, r.di, lf, r.tmp_mem, evs⟩
      else
        match r.fence with
        | some fence =>
          let w := kfd_fence_put_wait_if_diff_context env (some fence) lf
          let evs := evs ++ w.2
          if w.1 ≠ 0 then ⟨w.1, tot, r.si, r.di, some fence, r.tmp_mem, evs⟩
          else cma_main_loop env write innerFuel fuel r.si r.di (some fence) tot
            r.tmp_mem evs
        | none => cma_main_loop env write innerFuel fuel r.si r.di lf tot r.tmp_mem evs
    else ⟨0, tot, si, di, lf, tmp, evs⟩

/-- kfd_free_cma_bos: release every shadow BO tracked on the iterator's
cma_list (put the pinned sg pages when present, then free the memory). -/
def kfd_free_cma_bos (ci : cma_iter) : List CmaEv :=
  ci.cma_list.flatMap fun b =>
    (if b.sg then [CmaEv.put_sg] else []) ++ [CmaEv.free_mem b.mem]

/-- kfd_ioctl_cross_memory_copy.  The embedding follows the source's
control flow, including the check after get_pid_task that re-tests
remote_pid (already known non-NULL at that point) instead of remote_task,
and the final fence wait whose result overwrites err. -/
def kfd_ioctl_cross_memory_copy (env : IoctlEnv) (args : CmaArgs) : IoctlRes :=
  if args.src_mem_range_array == 0 || args.dst_mem_range_array == 0 ||
     args.src_mem_array_size == 0 || args.dst_mem_array_size == 0 then
    ⟨-EINVAL, 0, .badParams, []⟩
  else if !env.kmalloc_ok then ⟨-ENOMEM, 0, .nomem, []⟩
  else
    match env.src_copy, env.dst_copy with
    | none, _ => ⟨-EFAULT, 0, .cfuFail, []⟩
    | some _, none => ⟨-EFAULT, 0, .cfuFail, []⟩
    | some src_array, some dst_array =>
      match env.find_get_pid args.pid with
      | none => ⟨-ESRCH, 0, .pidFail, []⟩
      | some remote_pid =>
        let remote_task := env.get_pid_task remote_pid
        if (some remote_pid).isNone then ⟨-ESRCH, 0, .taskDied, []⟩
        else
          let evs0 := [CmaEv.mm_access_call remote_task.isNone]
          match env.mm_access remote_task with
          | .null => ⟨-ESRCH, 0, .mmFail, evs0⟩
          | .err e => ⟨if e == -EACCES then -EPERM else e, 0, .mmFail, evs0⟩
          | .mm _ =>
            match env.get_kfd_process remote_task with
            | .error _ => ⟨-EINVAL, 0, .procFail, evs0⟩
            | .ok remote_bos =>
              let di0 :=
                if args.flags_write then
                  kfd_cma_iter_init false dst_array args.dst_mem_array_size remote_bos
                else
                  kfd_cma_iter_init false dst_array args.dst_mem_array_size env.local_bos
              match di0 with
              | .error e => ⟨e, 0, .iterFail, evs0⟩
              | .ok di =>
                let si0 :=
                  if args.flags_write then
                    kfd_cma_iter_init false src_array args.src_mem_array_size env.local_bos
                  else
                    kfd_cma_iter_init false src_array args.src_mem_array_size remote_bos
                match si0 with
                | .error e => ⟨e, 0, .iterFail, evs0⟩
                | .ok si =>
                  let r := cma_main_loop env.cma args.flags_write env.fuel env.fuel
                    si di none 0 none evs0
                  let fin : Int × List CmaEv :=
                    match r.lfence with
                    | some f =>
                      (kfd_cma_fence_wait env.cma f,
                       r.evs ++ [CmaEv.fence_wait f, CmaEv.fence_put f])
                    | none => (r.err, r.evs)
                  let evs := fin.2
                  let evs :=
                    match r.tmp_mem with
                    | some t => evs ++ [CmaEv.free_mem t]
                    | none => evs
                  let evs := evs ++ kfd_free_cma_bos r.si ++ kfd_free_cma_bos r.di
                  ⟨fin.1, r.total, .done, evs⟩

/-- No two buffer objects of one process have overlapping device-virtual
intervals (spec data-model invariant for kfd_bo). -/
def bosDisjoint (p : List kfd_bo) : Prop :=
  p.Pairwise fun a b => a.last < b.start ∨ b.last < a.start

/-! ### Concrete fixtures used by witnesses and counterexamples. -/

/-- Destroy environment with the device-wide reset flag set. -/
def envD7 : DestroyEnv := ⟨true, fun _ => 0, fun _ => 0, 0⟩

def m7 : v9_mqd := ⟨0, 0, 0, 0, 0⟩

/-- Dump environment: kmalloc succeeds, registers read back their own
offset. -/
def env8 : DumpEnv := ⟨true, fun r => r⟩

/-- MQD exercising the wptr wraparound (wptr_lo's low bits 3 < rptr's low
bits 5 for queue size 2^10). -/
def m9 : v9_mqd := ⟨0, 5, 3, 7, 9⟩

/-- Copy-engine environment whose fence wait always times out. -/
def envW2 : CmaEnv :=
  ⟨fun _ => 0, true, fun s _ => .ok (s, s), true, fun _ _ => .ok 0,
   fun _ _ _ _ _ s => .ok (⟨0, 0⟩, s), fun s => (0, s)⟩

/-- Copy-engine environment where everything succeeds: pinning pins all
requested pages, allocation returns kgd_mem id 42, device copies copy all
requested bytes. -/
def envC1 : CmaEnv :=
  ⟨fun _ => 1, true, fun s _ => .ok (s, s), true, fun _ _ => .ok 42,
   fun _ _ _ _ _ s => .ok (⟨0, 0⟩, s), fun s => (0, s)⟩

/-- Source buffer for the staging-cap scenario: a userptr BO (cpuva set). -/
def bo1s : kfd_bo := ⟨4096, 4096 + 3 * MAX_SYSTEM_BO_SIZE, 0, some 4096, 0, 100⟩

/-- Destination buffer for the staging-cap scenario: GTT, no cpuva, same
device. -/
def bo1d : kfd_bo := ⟨2 ^ 20, 2 ^ 20 + 3 * MAX_SYSTEM_BO_SIZE, 0, none, 0, 200⟩

/-- Source iterator: one range of MAX_SYSTEM_BO_SIZE + PAGE_SIZE bytes
(513 pages) resolved to bo1s. -/
def si1 : cma_iter :=
  ⟨[⟨4096, MAX_SYSTEM_BO_SIZE + PAGE_SIZE⟩], 0, 1, MAX_SYSTEM_BO_SIZE + PAGE_SIZE,
   some bo1s, 0, [bo1s], []⟩

/-- Destination iterator: one range of the same length resolved to bo1d. -/
def di1 : cma_iter :=
  ⟨[⟨2 ^ 20, MAX_SYSTEM_BO_SIZE + PAGE_SIZE⟩], 0, 1, MAX_SYSTEM_BO_SIZE + PAGE_SIZE,
   some bo1d, 0, [bo1d], []⟩

/-- Copy-engine environment where the device copy fails (for the
kfd_create_cma_system_bo copy_fail path). -/
def env5 : CmaEnv :=
  ⟨fun _ => 1, true, fun s _ => .ok (s, s), true, fun _ _ => .ok 42,
   fun _ _ _ _ _ _ => .error (-EINVAL), fun s => (0, s)⟩

/-- A VRAM source BO with kgd_mem id 7. -/
def bo5 : kfd_bo := ⟨0, MAX_SYSTEM_BO_SIZE - 1, KFD_IOC_ALLOC_MEM_FLAGS_VRAM, none, 1, 7⟩

/-- A buffer object covering [4096, 8191]. -/
def boW : kfd_bo := ⟨4096, 8191, 0, none, 0, 1⟩

def pW : List kfd_bo := [boW]

def arrW : List kfd_memory_range := [⟨4096, 8⟩]

/-- An iterator whose remaining total (3) is smaller than an attempted
advance of 5. -/
def ciW : cma_iter := ⟨[⟨4096, 8⟩], 0, 1, 3, some boW, 0, pW, []⟩

/-- The iterator kfd_cma_iter_init builds from arrW over pW. -/
def ciInitW : cma_iter := ⟨arrW, 0, 1, 8, some boW, 0, pW, []⟩

/-- ciInitW after advancing all 8 bytes (terminal). -/
def ciAdvW : cma_iter := ⟨arrW, 8, 0, 0, some boW, 0, pW, []⟩

/-- Ioctl environment in which the remote process exists but kcl_mm_access
denies access (-EACCES): no ptrace-attach-equivalent relationship. -/
def env6 : IoctlEnv :=
  ⟨envC1, true, some [⟨0, 16⟩], some [⟨0, 16⟩], fun _ => some 1, fun _ => some 2,
   fun _ => .err (-EACCES), fun _ => .ok [], [], 4⟩

def args6 : CmaArgs := ⟨1, 1, 1, 1, 77, true⟩

/-- Ioctl environment in which the remote task has already died:
get_pid_task returns NULL. -/
def env10 : IoctlEnv :=
  ⟨envC1, true, some [⟨0, 16⟩], some [⟨0, 16⟩], fun _ => some 1, fun _ => none,
   fun _ => .null, fun _ => .ok [], [], 4⟩

def args10 : CmaArgs := ⟨1, 1, 1, 1, 77, true⟩

/-! ## Theorems -/

/-- C7: If the device-wide reset flag is set when kgd_hqd_destroy is
invoked, the operation returns the fatal reset error (-EIO) immediately,
with an empty hardware event trace: no slot-lock acquisition and no
register write. -/
theorem c7_hqd_destroy_in_reset (env : DestroyEnv) (m : v9_mqd)
    (rt : kfd_preempt_type) (ut : Nat) (h : env.in_gpu_reset = true) :
    kgd_hqd_destroy env m rt ut = (-EIOerr, []) := by
  unfold kgd_hqd_destroy
  rw [h]
  simp

/-- Witness for c7_hqd_destroy_in_reset at a concrete device in reset. -/
theorem c7_hqd_destroy_in_reset_witness :
    envD7.in_gpu_reset = true ∧
    kgd_hqd_destroy envD7 m7 kfd_preempt_type.wavefront_drain 1000 = (-EIOerr, []) :=
  ⟨rfl, c7_hqd_destroy_in_reset envD7 m7 kfd_preempt_type.wavefront_drain 1000 rfl⟩

/-- C5 (code evaluated at the failing input): when the intermediate copy
inside kfd_create_cma_system_bo fails for a VRAM source BO, the function
fails, yet the freed memory is the SOURCE buffer's kgd_mem (id 7) - the
freshly allocated shadow BO (id 42) is never freed.  This contradicts the
claim (and the function's cleanup intent) that the newly allocated shadow
buffer's memory is freed on this path. -/
theorem c5_create_cma_system_bo_copy_fail_frees_source :
    (kfd_create_cma_system_bo env5 2 bo5 4096 0 true).err ≠ 0 ∧
    CmaEv.alloc_mem 42 ∈ (kfd_create_cma_system_bo env5 2 bo5 4096 0 true).evs ∧
    CmaEv.free_mem 7 ∈ (kfd_create_cma_system_bo env5 2 bo5 4096 0 true).evs ∧
    CmaEv.free_mem 42 ∉ (kfd_create_cma_system_bo env5 2 bo5 4096 0 true).evs := by
  decide

/-- C1 (code evaluated at the failing input): a single iteration of
kfd_copy_single_range over a 513-page userptr source segment staged to a
non-userptr destination requests MAX_SYSTEM_BO_SIZE + PAGE_SIZE bytes from
the device copy primitive - the staged request is NOT capped at
MAX_SYSTEM_BO_SIZE, contrary to the claim (and to the documentation of
kfd_create_cma_system_bo, whose userptr/sg branch never applies the cap). -/
theorem c1_staged_copy_exceeds_max_system_bo_size :
    CmaEv.m2m_req 0 (MAX_SYSTEM_BO_SIZE + PAGE_SIZE)
      ∈ (kfd_copy_single_range envC1 2 si1 di1 true none).evs ∧
    (kfd_copy_single_range envC1 2 si1 di1 true none).err = 0 ∧
    MAX_SYSTEM_BO_SIZE < MAX_SYSTEM_BO_SIZE + PAGE_SIZE := by
  decide

/-- C2: when the copy loop obtains a new fence whose context differs from
the previously pending fence's context, kfd_fence_put_wait_if_diff_context
waits for the previous fence under the 1-second timeout (a timed-out wait
yields -ETIME) and then releases it; when the contexts are equal the
previous fence is released with no wait. -/
theorem c2_fence_wait_if_diff_context (env : CmaEnv) (c p : dma_fence) :
    (c.context ≠ p.context →
      kfd_fence_put_wait_if_diff_context env (some c) (some p)
        = (kfd_cma_fence_wait env p, [CmaEv.fence_wait p, CmaEv.fence_put p])
      ∧ (env.fence_wait p = 0 →
          (kfd_fence_put_wait_if_diff_context env (some c) (some p)).1 = -ETIME))
    ∧ (c.context = p.context →
      kfd_fence_put_wait_if_diff_context env (some c) (some p)
        = (0, [CmaEv.fence_put p])) := by
  constructor
  · intro h
    constructor
    · simp [kfd_fence_put_wait_if_diff_context, h]
    · intro hw
      simp [kfd_fence_put_wait_if_diff_context, h, kfd_cma_fence_wait, hw, ETIME]
  · intro h
    simp [kfd_fence_put_wait_if_diff_context, h]

/-- Witness for c2_fence_wait_if_diff_context: different contexts, a timed
out wait. -/
theorem c2_fence_wait_if_diff_context_witness :
    kfd_fence_put_wait_if_diff_context envW2 (some ⟨1, 0⟩) (some ⟨2, 3⟩)
      = (kfd_cma_fence_wait envW2 ⟨2, 3⟩, [CmaEv.fence_wait ⟨2, 3⟩, CmaEv.fence_put ⟨2, 3⟩])
    ∧ (kfd_fence_put_wait_if_diff_context envW2 (some ⟨1, 0⟩) (some ⟨2, 3⟩)).1 = -ETIME :=
  ⟨((c2_fence_wait_if_diff_context envW2 ⟨1, 0⟩ ⟨2, 3⟩).1 (by decide)).1,
   ((c2_fence_wait_if_diff_context envW2 ⟨1, 0⟩ ⟨2, 3⟩).1 (by decide)).2 rfl⟩

/-- C8 counterexample: on a register range of 57 registers (one more than
the HQD_N_REGS = 56 cap) kgd_hqd_dump returns success with a truncated
56-entry dump - it does NOT return a capacity error as the claim states. -/
theorem c8_dump_over_cap_returns_success :
    exceptIsOk (kgd_hqd_dump env8 0 56).1 = true ∧
    (kgd_hqd_dump env8 0 56).1.toOption.map Prod.snd = some HQD_N_REGS ∧
    HQD_N_REGS < 56 + 1 - 0 := by
  decide

/-- The dump loop produces exactly the first (HQD_N_REGS - i) registers of
its input, in order, as ((offset << 2), value) pairs, counting how many were
emitted. -/
theorem hqd_dump_loop_spec (rreg : Nat → Nat) (regs : List Nat) :
    ∀ (i : Nat) (acc : List (Nat × Nat)) (evs : List GfxEv),
      hqd_dump_loop rreg regs i acc evs =
        (i + min regs.length (HQD_N_REGS - i),
         acc ++ (regs.take (HQD_N_REGS - i)).map (fun r => (r <<< 2, rreg r)),
         evs ++ (regs.take (HQD_N_REGS - i)).map GfxEv.rreg) := by
  induction regs with
  | nil => intro i acc evs; simp [hqd_dump_loop]
  | cons r rs ih =>
    intro i acc evs
    unfold hqd_dump_loop
    by_cases h : HQD_N_REGS ≤ i
    · rw [if_pos h, ih]
      have h0 : HQD_N_REGS - i = 0 := by omega
      simp [h0]
    · rw [if_neg h, ih]
      have h1 : HQD_N_REGS - i = (HQD_N_REGS - (i + 1)) + 1 := by omega
      rw [h1]
      refine Prod.ext ?_ (Prod.ext ?_ ?_)
      · simp [Nat.succ_min_succ]
        omega
      · simp [List.take_succ_cons]
      · simp [List.take_succ_cons]

/-- C8 (amended): kgd_hqd_dump reads back the register block under the slot
lock as (registerOffset << 2, value) pairs, but a range larger than the
HQD_N_REGS = 56 cap is silently truncated to the first 56 registers and the
call still returns success with n_regs = min(range, 56); no capacity error
is produced. -/
theorem c8_dump_truncates_at_cap (env : DumpEnv) (b e : Nat)
    (h : env.kmalloc_ok = true) :
    kgd_hqd_dump env b e =
      (.ok (((List.range' b (e + 1 - b)).take HQD_N_REGS).map
              (fun r => (r <<< 2, env.rreg r)),
            min (e + 1 - b) HQD_N_REGS),
       [GfxEv.acquire_queue]
         ++ ((List.range' b (e + 1 - b)).take HQD_N_REGS).map GfxEv.rreg
         ++ [GfxEv.release_queue]) := by
  unfold kgd_hqd_dump
  rw [h]
  simp only [Bool.not_true, Bool.false_eq_true, if_false]
  rw [hqd_dump_loop_spec]
  simp [List.length_range']

/-- Witness for c8_dump_truncates_at_cap on the 57-register range. -/
theorem c8_dump_truncates_at_cap_witness :
    env8.kmalloc_ok = true ∧
    kgd_hqd_dump env8 0 56 =
      (.ok (((List.range' 0 (56 + 1 - 0)).take HQD_N_REGS).map
              (fun r => (r <<< 2, env8.rreg r)),
            min (56 + 1 - 0) HQD_N_REGS),
       [GfxEv.acquire_queue]
         ++ ((List.range' 0 (56 + 1 - 0)).take HQD_N_REGS).map GfxEv.rreg
         ++ [GfxEv.release_queue]) :=
  ⟨rfl, c8_dump_truncates_at_cap env8 0 56 rfl⟩

/-- A successful kfd_cma_iter_update_bo only replaces cur_bo. -/
theorem kfd_cma_iter_update_bo_fields {ci ci' : cma_iter}
    (h : kfd_cma_iter_update_bo ci = .ok ci') :
    ∃ b, ci' = { ci with cur_bo := some b } := by
  unfold kfd_cma_iter_update_bo at h
  dsimp only at h
  split at h
  · exact absurd h (by simp)
  next bo heq =>
    split at h
    · exact absurd h (by simp)
    · injection h with h
      exact ⟨bo, h.symm⟩

/-- A successful advance consumed at most the remaining total and decreased
it by exactly the advanced amount. -/
theorem kfd_cma_iter_advance_total {ci : cma_iter} {size : Nat} {ci' : cma_iter}
    (h : kfd_cma_iter_advance ci size = .ok ci') :
    size ≤ ci.total ∧ ci'.total = ci.total - size := by
  unfold kfd_cma_iter_advance at h
  dsimp only at h
  split at h
  next hguard => exact absurd h (by simp)
  next hguard =>
    have hle : size ≤ ci.total := by
      simp only [not_or, Nat.not_lt] at hguard
      exact hguard.1
    refine ⟨hle, ?_⟩
    split at h
    · split at h
      · injection h with h
        subst h
        rfl
      · split at h
        · exact absurd h (by simp)
        next ci1 heq =>
          obtain ⟨b, hb⟩ := kfd_cma_iter_update_bo_fields heq
          injection h with h
          subst h
          subst hb
          rfl
    · injection h with h
      subst h
      rfl

/-- A sequence of successful advances never moves more bytes than the
iterator's remaining total. -/
theorem kfd_cma_iter_advanceList_sum {steps : List Nat} :
    ∀ {ci ci' : cma_iter}, kfd_cma_iter_advanceList ci steps = .ok ci' →
      steps.sum ≤ ci.total := by
  induction steps with
  | nil => intro ci ci' h; simp
  | cons s rest ih =>
    intro ci ci' h
    unfold kfd_cma_iter_advanceList at h
    split at h
    · exact absurd h (by simp)
    next ci1 heq =>
      obtain ⟨h1, h2⟩ := kfd_cma_iter_advance_total heq
      have h3 := ih h
      simp only [List.sum_cons]
      omega

/-- kfd_cma_iter_init gives the iterator a remaining total equal to the sum
of the supplied range lengths. -/
theorem kfd_cma_iter_init_total {arrNull : Bool} {arr : List kfd_memory_range}
    {segs : Nat} {p : List kfd_bo} {ci : cma_iter}
    (h : kfd_cma_iter_init arrNull arr segs p = .ok ci) :
    ci.total = ((arr.take segs).map kfd_memory_range.size).sum := by
  unfold kfd_cma_iter_init at h
  dsimp only at h
  split at h
  · exact absurd h (by simp)
  · split at h
    · injection h with h
      subst h
      rfl
    · split at h
      · exact absurd h (by simp)
      next ci1 heq =>
        obtain ⟨b, hb⟩ := kfd_cma_iter_update_bo_fields heq
        injection h with h
        subst h
        subst hb
        rfl

/-- C3: advancing a CmaIterator by more than the remaining total, or past
the end of the current range, fails with the internal-consistency error
-EFAULT; consequently the bytes advanced over any successful lifetime never
exceed the sum of the input ranges' lengths; and the iterator is terminal
exactly when no ranges remain or the remaining byte count is zero. -/
theorem c3_iter_lifetime_invariants :
    (∀ (ci : cma_iter) (size : Nat),
      ci.total < size ∨ (curRange ci).size < ci.offset + size →
      kfd_cma_iter_advance ci size = .error (-EFAULT)) ∧
    (∀ (arrNull : Bool) (arr : List kfd_memory_range) (segs : Nat)
       (p : List kfd_bo) (ci : cma_iter),
      kfd_cma_iter_init arrNull arr segs p = .ok ci →
      ∀ (steps : List Nat) (ci' : cma_iter),
        kfd_cma_iter_advanceList ci steps = .ok ci' →
        steps.sum ≤ ((arr.take segs).map kfd_memory_range.size).sum) ∧
    (∀ ci : cma_iter, kfd_cma_iter_end ci = true ↔ ci.nr_segs = 0 ∨ ci.total = 0) := by
  refine ⟨?_, ?_, ?_⟩
  · intro ci size h
    unfold kfd_cma_iter_advance
    rw [if_pos]
    exact h
  · intro arrNull arr segs p ci hinit steps ci' hadv
    have h1 := kfd_cma_iter_advanceList_sum hadv
    have h2 := kfd_cma_iter_init_total hinit
    omega
  · intro ci
    simp [kfd_cma_iter_end]

/-- Witness for c3_iter_lifetime_invariants: an over-long advance faults, a
full walk of arrW moves exactly its 8 bytes, and the end predicate matches
its characterization on ciW. -/
theorem c3_iter_lifetime_invariants_witness :
    kfd_cma_iter_advance ciW 5 = .error (-EFAULT) ∧
    ([8] : List Nat).sum ≤ ((arrW.take 1).map kfd_memory_range.size).sum ∧
    (kfd_cma_iter_end ciW = true ↔ ciW.nr_segs = 0 ∨ ciW.total = 0) :=
  ⟨c3_iter_lifetime_invariants.1 ciW 5 (by decide),
   c3_iter_lifetime_invariants.2.1 false arrW 1 pW ciInitW rfl [8] ciAdvW rfl,
   c3_iter_lifetime_invariants.2.2 ciW⟩

/-- With disjoint buffer intervals, at most one buffer object contains any
given address. -/
theorem bosDisjoint_unique {p : List kfd_bo} (hd : bosDisjoint p) {b b' : kfd_bo}
    (hb : b ∈ p) (hb' : b' ∈ p) {va : Nat}
    (h1 : b.start ≤ va) (h2 : va ≤ b.last) (h1' : b'.start ≤ va)
    (h2' : va ≤ b'.last) : b = b' := by
  by_contra hne
  have hsym : Symmetric (fun a c : kfd_bo => a.last < c.start ∨ c.last < a.start) := by
    intro a c h
    rcases h with h | h
    · exact Or.inr h
    · exact Or.inl h
  have := (List.Pairwise.forall hsym hd) hb hb' hne
  rcases this with h | h <;> omega

/-- kfd_cma_iter_update_bo can only fail with -EFAULT. -/
theorem kfd_cma_iter_update_bo_error_val {ci : cma_iter} {e : Int}
    (h : kfd_cma_iter_update_bo ci = .error e) : e = -EFAULT := by
  unfold kfd_cma_iter_update_bo at h
  dsimp only at h
  split at h
  · injection h with h
    exact h.symm
  · split at h
    · injection h with h
      exact h.symm
    · exact absurd h (by simp)

/-- Full characterization of kfd_cma_iter_update_bo over a process with
disjoint buffer intervals and a nonempty current range: it fails with
-EFAULT exactly when the range's interval is not contained in any single
buffer object, and on success resolves cur_bo to the containing buffer. -/
theorem kfd_cma_iter_update_bo_iff (ci : cma_iter) (hd : bosDisjoint ci.p)
    (hsz : 0 < (curRange ci).size) :
    (kfd_cma_iter_update_bo ci = .error (-EFAULT) ↔
      ¬ ∃ b ∈ ci.p, b.start ≤ (curRange ci).va_addr ∧
        (curRange ci).va_addr + (curRange ci).size - 1 ≤ b.last) ∧
    (∀ ci', kfd_cma_iter_update_bo ci = .ok ci' →
      ∃ b ∈ ci.p, b.start ≤ (curRange ci).va_addr ∧
        (curRange ci).va_addr + (curRange ci).size - 1 ≤ b.last ∧
        ci' = { ci with cur_bo := some b }) := by
  have hvave : (curRange ci).va_addr ≤ (curRange ci).va_addr + (curRange ci).size - 1 := by
    omega
  unfold kfd_cma_iter_update_bo
  dsimp only
  cases hfind : kfd_process_find_bo_from_interval ci.p (curRange ci).va_addr
      ((curRange ci).va_addr + (curRange ci).size - 1) with
  | none =>
    have hnone : ∀ x ∈ ci.p, ¬(x.start ≤ (curRange ci).va_addr ∧
        (curRange ci).va_addr ≤ x.last) := by
      intro x hx
      have := List.find?_eq_none.mp
        (show ci.p.find? (fun b => decide (b.start ≤ (curRange ci).va_addr ∧
          (curRange ci).va_addr ≤ b.last)) = none from hfind) x hx
      simpa using this
    refine ⟨iff_of_true rfl ?_, ?_⟩
    · rintro ⟨b, hbmem, hs, he⟩
      exact hnone b hbmem ⟨hs, le_trans hvave he⟩
    · intro ci' h
      exact absurd h (by simp)
  | some b =>
    have hfind' : ci.p.find?
        (fun x => decide (x.start ≤ (curRange ci).va_addr ∧
          (curRange ci).va_addr ≤ x.last)) = some b := hfind
    have hpred : b.start ≤ (curRange ci).va_addr ∧
        (curRange ci).va_addr ≤ b.last := by
      simpa using List.find?_some hfind'
    have hbmem := List.mem_of_find?_eq_some hfind'
    dsimp only
    by_cases hout : (curRange ci).va_addr + (curRange ci).size - 1 > b.last
    · rw [if_pos hout]
      refine ⟨iff_of_true rfl ?_, ?_⟩
      · rintro ⟨b', hb'mem, hs', he'⟩
        have hb'va : b'.start ≤ (curRange ci).va_addr ∧
            (curRange ci).va_addr ≤ b'.last := ⟨hs', le_trans hvave he'⟩
        have heq : b = b' :=
          bosDisjoint_unique hd hbmem hb'mem hpred.1 hpred.2 hb'va.1 hb'va.2
        subst heq
        omega
      · intro ci' h
        exact absurd h (by simp)
    · rw [if_neg hout]
      refine ⟨iff_of_false (by simp) ?_, ?_⟩
      · intro hc
        exact hc ⟨b, hbmem, hpred.1, by omega⟩
      · intro ci' h
        injection h with h
        exact ⟨b, hbmem, hpred.1, by omega, h.symm⟩

/-- C4: kfd_cma_iter_init rejects a NULL or zero-length range array with
-EINVAL, sums the range sizes into the iterator's remaining total, and -
over a process whose buffer intervals are disjoint, for a nonempty first
range - fails with -EFAULT exactly when the first range's interval is not
fully contained in a single buffer object, otherwise resolving cur_bo to
the containing buffer with the proper intra-buffer offset. -/
theorem c4_iter_init_validation (arrNull : Bool) (arr : List kfd_memory_range)
    (segs : Nat) (p : List kfd_bo) :
    ((arrNull = true ∨ segs = 0) →
      kfd_cma_iter_init arrNull arr segs p = .error (-EINVAL)) ∧
    (∀ ci, kfd_cma_iter_init arrNull arr segs p = .ok ci →
      ci.total = ((arr.take segs).map kfd_memory_range.size).sum) ∧
    (∀ r rest, arr = r :: rest → 0 < r.size → arrNull = false → segs ≠ 0 →
      bosDisjoint p →
      ((kfd_cma_iter_init arrNull arr segs p = .error (-EFAULT) ↔
        ¬ ∃ b ∈ p, b.start ≤ r.va_addr ∧ r.va_addr + r.size - 1 ≤ b.last) ∧
       (∀ ci, kfd_cma_iter_init arrNull arr segs p = .ok ci →
        ∃ b ∈ p, b.start ≤ r.va_addr ∧ r.va_addr + r.size - 1 ≤ b.last ∧
          ci.cur_bo = some b ∧ ci.bo_offset = r.va_addr - b.start))) := by
  refine ⟨?_, ?_, ?_⟩
  · intro h
    unfold kfd_cma_iter_init
    rw [if_pos]
    rcases h with h | h
    · exact Or.inl h
    · exact Or.inr (by simp [h])
  · intro ci h
    exact kfd_cma_iter_init_total h
  · intro r rest harr hsz hnull hsegs hdisj
    subst harr
    subst hnull
    obtain ⟨k, rfl⟩ := Nat.exists_eq_succ_of_ne_zero hsegs
    have hg : ¬(false = true ∨ (k + 1 == 0) = true) := by simp
    have htotne :
        ¬(((((r :: rest).take (k + 1)).map kfd_memory_range.size).sum == 0) = true) := by
      simp [List.take_succ_cons]
      omega
    unfold kfd_cma_iter_init
    dsimp only
    rw [if_neg hg, if_neg htotne]
    obtain ⟨hiff, hok⟩ := kfd_cma_iter_update_bo_iff
      { array := r :: rest, offset := 0, nr_segs := k + 1,
        total := (((r :: rest).take (k + 1)).map kfd_memory_range.size).sum,
        cur_bo := none, bo_offset := 0, p := p, cma_list := [] }
      hdisj hsz
    cases hub : kfd_cma_iter_update_bo
        { array := r :: rest, offset := 0, nr_segs := k + 1,
          total := (((r :: rest).take (k + 1)).map kfd_memory_range.size).sum,
          cur_bo := none, bo_offset := 0, p := p, cma_list := [] } with
    | error e =>
      have he := kfd_cma_iter_update_bo_error_val hub
      subst he
      refine ⟨iff_of_true rfl (hiff.mp hub), ?_⟩
      intro ci h
      exact absurd h (by simp)
    | ok ci1 =>
      obtain ⟨b, hbmem, hs, he, hci1⟩ := hok ci1 hub
      refine ⟨iff_of_false (by simp) (fun hc => hc ⟨b, hbmem, hs, he⟩), ?_⟩
      intro ci h
      injection h with h
      subst h
      subst hci1
      exact ⟨b, hbmem, hs, he, rfl, rfl⟩

/-- Witness for c4_iter_init_validation: arrW over the single buffer pW
resolves the 8-byte range to boW with total 8 and offset 0. -/
theorem c4_iter_init_validation_witness :
    ciInitW.total = ((arrW.take 1).map kfd_memory_range.size).sum ∧
    (∃ b ∈ pW, b.start ≤ (4096 : Nat) ∧ 4096 + 8 - 1 ≤ b.last ∧
      ciInitW.cur_bo = some b ∧ ciInitW.bo_offset = 4096 - b.start) :=
  ⟨(c4_iter_init_validation false arrW 1 pW).2.1 ciInitW rfl,
   ((c4_iter_init_validation false arrW 1 pW).2.2 ⟨4096, 8⟩ [] rfl (by decide) rfl
      (by decide) (by simp [bosDisjoint, pW])).2 ciInitW rfl⟩

/-- For x < 2^n and k ≤ n, masking x with the n-bit complement of
2^k - 1 clears exactly the low k bits. -/
theorem and_xor_mask_eq_sub_mod {x k n : Nat} (hk : k ≤ n) (hx : x < 2 ^ n) :
    x &&& ((2 ^ k - 1) ^^^ (2 ^ n - 1)) = x - x % 2 ^ k := by
  have hdm := Nat.div_add_mod x (2 ^ k)
  have hshift : x - x % 2 ^ k = (x >>> k) <<< k := by
    rw [Nat.shiftLeft_eq, Nat.shiftRight_eq_div_pow]
    have h2 : x / 2 ^ k * 2 ^ k = 2 ^ k * (x / 2 ^ k) := Nat.mul_comm _ _
    omega
  rw [hshift]
  apply Nat.eq_of_testBit_eq
  intro i
  simp only [Nat.testBit_and, Nat.testBit_xor, Nat.testBit_two_pow_sub_one,
    Nat.testBit_shiftLeft, Nat.testBit_shiftRight]
  by_cases h1 : i < k
  · have h2 : i < n := lt_of_lt_of_le h1 hk
    simp [h1, h2, Nat.not_le.mpr h1]
  · by_cases h2 : i < n
    · have hki : k ≤ i := Nat.not_lt.mp h1
      have hik : k + (i - k) = i := by omega
      simp [h1, h2, hki, hik]
    · have hxi : x.testBit i = false :=
        Nat.testBit_lt_two_pow
          (lt_of_lt_of_le hx (Nat.pow_le_pow_right (by norm_num) (Nat.not_lt.mp h2)))
      by_cases hki : k ≤ i
      · have hik : k + (i - k) = i := by omega
        simp [h1, h2, hki, hik, hxi]
      · simp [h1, h2, hki, hxi]

/-- The uint32 computation queue_size - 1 (wrapping add of 0xffffffff). -/
theorem mask_thirtytwo {k : Nat} (hk : k < 32) :
    (2 ^ k + (2 ^ 32 - 1)) % 2 ^ 32 = 2 ^ k - 1 := by
  have h1 : 0 < 2 ^ k := Nat.two_pow_pos k
  have h2 : 2 ^ k < 2 ^ 32 := Nat.pow_lt_pow_right (by norm_num) hk
  have h3 : 2 ^ k + (2 ^ 32 - 1) = (2 ^ k - 1) + 2 ^ 32 := by omega
  rw [h3, Nat.add_mod_right, Nat.mod_eq_of_lt (by omega)]

/-- 2 << f fits uint32 for f + 1 < 32 and equals 2^(f+1). -/
theorem hqd_load_queue_size_eq {f : Nat} (hf : f + 1 < 32) :
    hqd_load_queue_size f = 2 ^ (f + 1) := by
  unfold hqd_load_queue_size UINT32_LIMIT
  rw [Nat.shiftLeft_eq]
  have h1 : 2 * 2 ^ f = 2 ^ (f + 1) := by
    rw [Nat.pow_succ]
    ring
  rw [h1]
  exact Nat.mod_eq_of_lt (Nat.pow_lt_pow_right (by norm_num) hf)

/-- Reducing a (hi * 2^32 + lo) quantity mod 2^k keeps only lo's low bits
when k ≤ 32. -/
theorem mul_two_pow_add_mod32 {k : Nat} (hk : k ≤ 32) (hi lo : Nat) :
    (hi * 2 ^ 32 + lo) % 2 ^ k = lo % 2 ^ k := by
  obtain ⟨c, hc⟩ := pow_dvd_pow 2 hk
  rw [hc, show hi * (2 ^ k * c) = 2 ^ k * (hi * c) by ring, Nat.mul_add_mod]

/-- C9: with all MQD register fields in 32-bit range and a queue size that
fits uint32, the 64-bit write pointer programmed by kgd_hqd_load equals the
saved 64-bit write pointer with its low log2(queue_size) bits replaced by
the low bits of the saved 32-bit read pointer, plus one queue size exactly
when the saved write pointer's low bits are smaller (single wraparound);
and the two programmed 32-bit halves recombine to that value. -/
theorem c9_wptr_reconstruction (m : v9_mqd)
    (hrptr : m.cp_hqd_pq_rptr < UINT32_LIMIT)
    (hlo : m.cp_hqd_pq_wptr_lo < UINT32_LIMIT)
    (hhi : m.cp_hqd_pq_wptr_hi < UINT32_LIMIT)
    (hf : m.cp_hqd_pq_control_queue_size + 1 < 32) :
    hqd_load_guessed_wptr m = spec_reconstructed_wptr m ∧
    (hqd_load_programmed_wptr m).1 + UINT32_LIMIT * (hqd_load_programmed_wptr m).2
      = hqd_load_guessed_wptr m := by
  constructor
  · unfold hqd_load_guessed_wptr spec_reconstructed_wptr
    dsimp only
    simp only [UINT32_LIMIT, UINT64_LIMIT]
    rw [hqd_load_queue_size_eq hf]
    set k := m.cp_hqd_pq_control_queue_size + 1 with hk
    have hk32 : k < 32 := by
      rw [hk]
      exact hf
    rw [mask_thirtytwo hk32]
    simp only [Nat.and_pow_two_sub_one_eq_mod]
    rw [and_xor_mask_eq_sub_mod (show k ≤ 32 by omega)
      (show m.cp_hqd_pq_wptr_lo < 2 ^ 32 from hlo)]
    rw [Nat.shiftLeft_eq]
    rw [mul_two_pow_add_mod32 (show k ≤ 32 by omega)]
    have hAle : m.cp_hqd_pq_wptr_lo % 2 ^ k ≤ m.cp_hqd_pq_wptr_lo := Nat.mod_le _ _
    generalize hA : m.cp_hqd_pq_wptr_lo % 2 ^ k = A at *
    generalize hB : m.cp_hqd_pq_rptr % 2 ^ k = B at *
    generalize hQ : 2 ^ k = Q at *
    congr 1
    by_cases hw : A < B
    · simp only [if_pos hw]
      omega
    · simp only [if_neg hw]
      omega
  · exact Nat.mod_add_div _ _

/-- Witness for c9_wptr_reconstruction on a wrapping example: queue size
2^10, rptr low bits 5, saved wptr low bits 3. -/
theorem c9_wptr_reconstruction_witness :
    (m9.cp_hqd_pq_rptr < UINT32_LIMIT ∧ m9.cp_hqd_pq_wptr_lo < UINT32_LIMIT ∧
     m9.cp_hqd_pq_wptr_hi < UINT32_LIMIT ∧ m9.cp_hqd_pq_control_queue_size + 1 < 32) ∧
    hqd_load_guessed_wptr m9 = spec_reconstructed_wptr m9 :=
  ⟨⟨by decide, by decide, by decide, by decide⟩,
   (c9_wptr_reconstruction m9 (by decide) (by decide) (by decide) (by decide)).1⟩

/-- The ioctl copy loop only appends to the event trace it is given. -/
theorem cma_main_loop_evs_prefix (env : CmaEnv) (write : Bool) (innerFuel : Nat) :
    ∀ (fuel : Nat) (si di : cma_iter) (lf : Option dma_fence) (tot : Nat)
      (tmp : Option Nat) (evs : List CmaEv),
      ∃ t, (cma_main_loop env write innerFuel fuel si di lf tot tmp evs).evs = evs ++ t := by
  intro fuel
  induction fuel with
  | zero =>
    intro si di lf tot tmp evs
    exact ⟨[], by simp [cma_main_loop]⟩
  | succ fuel ih =>
    intro si di lf tot tmp evs
    unfold cma_main_loop
    dsimp only
    split
    · split
      · exact ⟨(kfd_copy_single_range env innerFuel si di write tmp).evs, rfl⟩
      · split
        · split
          · exact ⟨_, by rw [List.append_assoc]⟩
          · obtain ⟨t, ht⟩ := ih _ _ _ _ _ _
            exact ⟨_, by rw [ht, List.append_assoc, List.append_assoc]⟩
        · obtain ⟨t, ht⟩ := ih _ _ _ _ _ _
          exact ⟨_, by rw [ht, List.append_assoc]⟩
    · exact ⟨[], by simp⟩

/-- C10: the error check after the remote-task lookup re-tests remote_pid
(already known non-NULL) instead of remote_task, so the "task died" -ESRCH
branch is unreachable for every input; and when the remote task has already
died (get_pid_task returns NULL) the NULL task pointer flows into the
subsequent kcl_mm_access permission check. -/
theorem c10_task_died_branch_unreachable (env : IoctlEnv) (args : CmaArgs) :
    (kfd_ioctl_cross_memory_copy env args).site ≠ ExitSite.taskDied ∧
    (∀ rpid : Nat, args.src_mem_range_array ≠ 0 → args.dst_mem_range_array ≠ 0 →
      args.src_mem_array_size ≠ 0 → args.dst_mem_array_size ≠ 0 →
      env.kmalloc_ok = true →
      env.src_copy.isSome = true → env.dst_copy.isSome = true →
      env.find_get_pid args.pid = some rpid →
      env.get_pid_task rpid = none →
      CmaEv.mm_access_call true ∈ (kfd_ioctl_cross_memory_copy env args).evs) := by
  constructor
  · unfold kfd_ioctl_cross_memory_copy
    dsimp only
    repeat' split
    all_goals simp_all
  · intro rpid hs hd hss hds hk hsrc hdst hpid htask
    obtain ⟨sa, hsa⟩ := Option.isSome_iff_exists.mp hsrc
    obtain ⟨da, hda⟩ := Option.isSome_iff_exists.mp hdst
    unfold kfd_ioctl_cross_memory_copy
    rw [if_neg (by simp [hs, hd, hss, hds])]
    rw [hk]
    simp only [hsa, hda, hpid, htask, Bool.not_true, Bool.false_eq_true, if_false,
      Option.isNone_some, Option.isNone_none]
    cases hmm : env.mm_access none with
    | null => simp
    | err e => simp
    | mm mmid =>
      cases hproc : env.get_kfd_process none with
      | error e => simp
      | ok remote_bos =>
        dsimp only
        split
        · simp
        next di hdi =>
          split
          · simp
          next si hsi =>
            obtain ⟨t, ht⟩ := cma_main_loop_evs_prefix env.cma args.flags_write env.fuel
              env.fuel si di none 0 none [CmaEv.mm_access_call true]
            dsimp only
            split
            all_goals
              split
              all_goals simp [ht]

/-- Witness for c10_task_died_branch_unreachable on a remote task that has
already died. -/
theorem c10_task_died_branch_unreachable_witness :
    (kfd_ioctl_cross_memory_copy env10 args10).site ≠ ExitSite.taskDied ∧
    CmaEv.mm_access_call true ∈ (kfd_ioctl_cross_memory_copy env10 args10).evs :=
  ⟨(c10_task_died_branch_unreachable env10 args10).1,
   (c10_task_died_branch_unreachable env10 args10).2 1 (by decide) (by decide)
     (by decide) (by decide) rfl rfl rfl rfl rfl⟩

/-- C6: when kcl_mm_access denies the ptrace-attach-with-real-credentials
relationship (-EACCES) for a resolved remote pid, the ioctl fails with
-EPERM, reports bytes_copied = 0 and performs no buffer allocation. -/
theorem c6_cross_memory_copy_eperm (env : IoctlEnv) (args : CmaArgs) (rpid : Nat)
    (hs : args.src_mem_range_array ≠ 0) (hd : args.dst_mem_range_array ≠ 0)
    (hss : args.src_mem_array_size ≠ 0) (hds : args.dst_mem_array_size ≠ 0)
    (hk : env.kmalloc_ok = true)
    (hsrc : env.src_copy.isSome = true) (hdst : env.dst_copy.isSome = true)
    (hpid : env.find_get_pid args.pid = some rpid)
    (hacc : env.mm_access (env.get_pid_task rpid) = MmAccessRes.err (-EACCES)) :
    (kfd_ioctl_cross_memory_copy env args).err = -EPERM ∧
    (kfd_ioctl_cross_memory_copy env args).bytes_copied = 0 ∧
    ∀ memid, CmaEv.alloc_mem memid ∉ (kfd_ioctl_cross_memory_copy env args).evs := by
  obtain ⟨sa, hsa⟩ := Option.isSome_iff_exists.mp hsrc
  obtain ⟨da, hda⟩ := Option.isSome_iff_exists.mp hdst
  unfold kfd_ioctl_cross_memory_copy
  rw [if_neg (by simp [hs, hd, hss, hds])]
  rw [hk]
  simp only [hsa, hda, hpid, hacc, Bool.not_true, Bool.false_eq_true, if_false,
    Option.isNone_some]
  refine ⟨?_, ?_, ?_⟩
  · simp
  · trivial
  · intro memid
    simp

/-- Witness for c6_cross_memory_copy_eperm: a concrete call with a live
remote pid but no ptrace relationship. -/
theorem c6_cross_memory_copy_eperm_witness :
    (kfd_ioctl_cross_memory_copy env6 args6).err = -EPERM ∧
    (kfd_ioctl_cross_memory_copy env6 args6).bytes_copied = 0 ∧
    ∀ memid, CmaEv.alloc_mem memid ∉ (kfd_ioctl_cross_memory_copy env6 args6).evs :=
  c6_cross_memory_copy_eperm env6 args6 1 (by decide) (by decide) (by decide)
    (by decide) rfl rfl rfl rfl rfl

end RKD
